import Mathlib

/-!
# Verification of the fediwallet consensus wallet and the ln-gateway pay subscription

Shallow embedding of `fediwallet/src/lib.rs` (federated Bitcoin wallet: consensus
aggregation of height and fee-rate proposals, balance, coin-selection decorator,
peg-out construction) and `gateway/ln-gateway/src/ng/mod.rs` (gateway pay
operation and its subscription stream).

Modelling conventions:
* `u32`/`u64` values (heights, satoshi amounts) are `Nat`. The only arithmetic
  the source performs on them is comparison and `saturating_sub`, and `Nat`
  subtraction is exactly saturating subtraction, so no modular reduction is needed.
* `Txid`, script, outpoint and preimage bytes are opaque and modelled as `Nat`.
* `f32` fee rates are modelled by the inductive `F32` below, which records the
  classification that `f32::classify` performs (NaN, infinity, zero, subnormal,
  normal) together with the numeric value of a normal float as a rational.
  The source only ever filters by `is_normal` and then compares surviving
  (all normal, hence pairwise comparable) values with `partial_cmp`, which on
  normal values is ordinary numeric comparison, so this model is faithful for
  every operation the source performs.
* `HashMap<Txid, u32>` built by `Wallet::height_map` is modelled as an
  association list with `List.lookup`; the transaction list it is built from has
  pairwise distinct txids, so lookup semantics agree with the hash map.
* Rust `Vec::sort` / `sort_by` (a stable sort) is modelled by
  `List.insertionSort`. In both call sites the comparator is a total preorder
  whose ties occur only between equal elements (`u32` values, or normal `F32`
  values compared by value, where equal value means equal element), so every
  sorting algorithm returns the same list and stability is irrelevant.
-/

namespace Fedimint

/-- Model of a Rust `f32` value, classified as by `f32::classify`.
The `Bool` flags record the sign (`true` = negative); a `norm` value carries its
numeric value as a nonzero rational in the normal range of `f32`. -/
inductive F32 where
  | nan : F32
  | inf : Bool → F32
  | zero : Bool → F32
  | subnormal : Bool → ℚ → F32
  | norm : ℚ → F32
deriving DecidableEq

/-- Rust `f32::is_normal`: `true` iff the value is neither zero, infinite,
subnormal nor NaN. Note that the sign is not inspected: a negative normal
value such as `-2.0` is normal. -/
def F32.isNormal : F32 → Bool
  | .norm _ => true
  | _ => false

/-- Whether the value is finite (neither NaN nor an infinity). -/
def F32.isFinite : F32 → Bool
  | .nan => false
  | .inf _ => false
  | _ => true

/-- Whether the value is strictly positive. -/
def F32.isPositive : F32 → Bool
  | .nan => false
  | .inf b => !b
  | .zero _ => false
  | .subnormal b _ => !b
  | .norm q => decide (0 < q)

/-- Numeric value used for comparisons. The source only compares values that
survived the `is_normal` filter, where `partial_cmp` is numeric comparison. -/
def F32.val : F32 → ℚ
  | .nan => 0
  | .inf b => if b then -1 else 1
  | .zero _ => 0
  | .subnormal b m => if b then -m else m
  | .norm q => q

/-- The comparison the fee aggregation sorts by (`a.partial_cmp(b)` on values
that survived the `is_normal` filter). -/
def F32.leVal (a b : F32) : Prop := a.val ≤ b.val

instance : DecidableRel F32.leVal :=
fun a b => inferInstanceAs (Decidable (a.val ≤ b.val))

instance : IsTotal F32 F32.leVal :=
⟨fun a b => le_total a.val b.val⟩

instance : IsTrans F32 F32.leVal :=
⟨fun _ _ _ hab hbc => le_trans hab hbc⟩

/-- One unspent output as returned by `wallet.list_unspent()`: the funding
transaction id (`outpoint.txid`) and the output value in satoshi (`txout.value`). -/
structure UTXO where
  txid : Nat
  value : Nat
deriving DecidableEq

/-- One entry of `wallet.list_transactions(false)`: a transaction id and its
confirmation height, `none` for unconfirmed (mempool) transactions. -/
structure TxInfo where
  txid : Nat
  height : Option Nat
deriving DecidableEq

/-- The mutable consensus state of `Wallet` together with the views of the
underlying bdk wallet database that the modelled methods read
(`list_unspent` and `list_transactions`). -/
structure WalletState where
  consensus_height : Nat
  finalty_delay : Nat
  last_proposal : Nat
  consensus_feerate : F32
  utxos : List UTXO
  txs : List TxInfo
deriving DecidableEq

/-- `WalletConsensus`: one peer proposal, a block height and a fee rate in
sats per vbyte. -/
structure WalletConsensus where
  block_height : Nat
  fee_rate : F32
deriving DecidableEq

/-- `Wallet::height_map`: association from txid to confirmation height, built
from the transaction list by dropping unconfirmed entries. -/
def Wallet.height_map (s : WalletState) : List (Nat × Nat) :=
  s.txs.filterMap (fun tx => tx.height.map (fun h => (tx.txid, h)))

/-- `Wallet::balance`: sum of the values of the unspent outputs whose funding
txid is in the height map at a height at most `consensus_height`. -/
def Wallet.balance (s : WalletState) : Nat :=
  ((s.utxos.filter (fun u =>
      match (Wallet.height_map s).lookup u.txid with
      | some h => decide (h ≤ s.consensus_height)
      | none => false)).map (fun u => u.value)).sum

/-- `Wallet::consensus_proposal`. The network height and the fee estimate are
the replies of the external blockchain client (`get_height`, `estimate_fee`),
passed in as arguments. The method takes `&self`: it returns the state it was
called on unchanged, which the second component makes explicit. -/
def Wallet.consensus_proposal (s : WalletState) (network_height : Nat)
    (fee_estimate : F32) : WalletConsensus × WalletState :=
  ({ block_height :=
       if s.last_proposal ≤ network_height - s.finalty_delay
       then network_height - s.finalty_delay
       else s.last_proposal,
     fee_rate := fee_estimate }, s)

/-- `Wallet::process_block_height_proposals`: sort ascending, take the element
at index `len / 2`, commit it only if it does not rewind `consensus_height`.
`none` models the `assert!` panic on an empty batch. -/
def Wallet.process_block_height_proposals (s : WalletState)
    (proposals : List Nat) : Option WalletState :=
  if proposals = [] then none
  else if s.consensus_height ≤
      (List.insertionSort (fun a b => a ≤ b) proposals).getD (proposals.length / 2) 0 then
    some { s with consensus_height :=
        (List.insertionSort (fun a b => a ≤ b) proposals).getD (proposals.length / 2) 0 }
  else some s

/-- `Wallet::process_fee_proposals`: drop proposals that are not normal
(`f32::is_normal`), abort the round if nothing remains, otherwise sort the
survivors ascending and commit the element at index `len / 2`.
`none` models the `assert!` panic on an empty batch. -/
def Wallet.process_fee_proposals (s : WalletState)
    (proposals : List F32) : Option WalletState :=
  if proposals = [] then none
  else if proposals.filter F32.isNormal = [] then some s
  else some { s with
    consensus_feerate :=
      (List.insertionSort F32.leVal (proposals.filter F32.isNormal)).getD
        ((proposals.filter F32.isNormal).length / 2) F32.nan }

/-- `Wallet::process_consensus_proposals`: on an empty batch log an error and
change nothing; otherwise unzip the batch into height and fee proposals and
process each. The inner calls cannot panic because both projected lists are
nonempty, so the `none` fallbacks below are unreachable. -/
def Wallet.process_consensus_proposals (s : WalletState)
    (proposals : List WalletConsensus) : WalletState :=
  if proposals = [] then s
  else
    match Wallet.process_block_height_proposals s
        (proposals.map WalletConsensus.block_height) with
    | none => s
    | some s1 =>
        match Wallet.process_fee_proposals s1
            (proposals.map WalletConsensus.fee_rate) with
        | none => s1
        | some s2 => s2

/-- `ConsensusHeightCoinSelector`: the captured height map, the consensus
height, and the inner coin-selection algorithm. The inner algorithm is
modelled as a function from the required and the (filtered) optional UTXO
set to its result; the remaining bdk arguments (database handle, fee rate,
amount, fee amount) are passed through unchanged by the decorator and are
irrelevant to the filtering, so they are left abstract inside `S`. -/
structure ConsensusHeightCoinSelector (S : Type) where
  height_map : List (Nat × Nat)
  consensus_height : Nat
  inner_selector : S

/-- `ConsensusHeightCoinSelector::coin_select`: assert that no required UTXOs
were pinned (`none` models the `assert!` panic), filter the optional UTXO set
down to outputs whose funding transaction is in the height map at a height at
most `consensus_height`, then delegate to the inner selector. Each optional
entry is a pair of a UTXO and its satisfaction weight, as in bdk. -/
def ConsensusHeightCoinSelector.coin_select {R : Type}
    (sel : ConsensusHeightCoinSelector (List (UTXO × Nat) → List (UTXO × Nat) → R))
    (required_utxos optional_utxos : List (UTXO × Nat)) : Option R :=
  if required_utxos = [] then
    some (sel.inner_selector required_utxos
      (optional_utxos.filter (fun p =>
        match sel.height_map.lookup p.1.txid with
        | some h => decide (h ≤ sel.consensus_height)
        | none => false)))
  else none

/-- `Wallet::coin_selection`: build the decorator from the wallet state. -/
def Wallet.coin_selection {S : Type} (s : WalletState) (selector : S) :
    ConsensusHeightCoinSelector S :=
  { height_map := Wallet.height_map s,
    consensus_height := s.consensus_height,
    inner_selector := selector }

/-- The transaction metadata bdk returns from `TxBuilder::finish`; only the
`sent` field is read by the source (`assert_eq!(meta.sent, amt.as_sat())`). -/
structure TransactionDetails where
  sent : Nat
deriving DecidableEq

/-- Outcome of `Wallet::create_pegout_tx`: a returned transaction, a builder
error propagated with `?`, or the `assert_eq!` panic. -/
inductive PegoutResult (Tx : Type) where
  | ok : Tx → PegoutResult Tx
  | builderErr : PegoutResult Tx
  | panicked : PegoutResult Tx
deriving DecidableEq

/-- The tail of `Wallet::create_pegout_tx` after the bdk builder ran: take the
outcome of `tx_builder.finish()` (external bdk code, hence an input here:
`none` is a builder `Err`), assert that `meta.sent` equals the requested
amount in satoshi — a mismatch panics instead of returning — then sign and
return the transaction. Signing is an opaque function. -/
def Wallet.create_pegout_tx {Tx : Type} (sign : Tx → Tx)
    (finish : Option (Tx × TransactionDetails)) (amt_sat : Nat) : PegoutResult Tx :=
  match finish with
  | none => PegoutResult.builderErr
  | some (tx, meta) =>
      if meta.sent = amt_sat then PegoutResult.ok (sign tx) else PegoutResult.panicked

/-- Modelled from the spec: the unsigned peg-out transaction assembled by the
bdk `TxBuilder` (external to this repository) — the selected input txids in
BIP-69 lexicographic order, the single recipient output, and the fee rate
taken from `consensus_feerate` (spec sections 4.4 and 8, invariant 6). -/
structure PegoutTx where
  input_txids : List Nat
  output_script : Nat
  output_value : Nat
  fee_rate : F32
deriving DecidableEq

/-- Total satoshi value of a list of UTXOs. -/
def utxoSum (l : List UTXO) : Nat := (l.map (fun u => u.value)).sum

/-- Modelled from the spec: the exact-match branch-and-bound phase of the bdk
`BranchAndBoundCoinSelection` (external to this repository) — explore subset
sums toward an exact match for the target amount under the iteration budget
(spec section 4.4 and glossary). Exploration order is fixed, so this phase is
deterministic. -/
def bnbExactMatch (budget : Nat) (candidates : List UTXO) (target : Nat) :
    Option (List UTXO) :=
  (candidates.sublists.take budget).find? (fun ss => utxoSum ss = target)

/-- Reorder a list by a permutation of its indices (the shuffle an RNG
produces, made explicit). -/
def applyPerm {α : Type} (perm : List Nat) (l : List α) : List α :=
  perm.filterMap (fun i => l.get? i)

/-- Take shuffled candidates until the target amount is covered. -/
def drawUntil (target : Nat) : List UTXO → List UTXO
  | [] => []
  | u :: rest => if target = 0 then [] else u :: drawUntil (target - u.value) rest

/-- Modelled from the spec: the fallback of the bdk branch-and-bound selector
when no exact match is found — a single random draw from the candidate set.
Spec section 9 records that the source flags this selection as possibly
non-deterministic (a FIXME comment on the construction saying it needs to
be deterministic but probably is not); the thread-local RNG it consumes is
made an explicit `rng` index-permutation input. -/
def single_random_draw (rng : List Nat) (candidates : List UTXO) (target : Nat) :
    List UTXO :=
  drawUntil target (applyPerm rng candidates)

/-- Modelled from the spec: bdk `BranchAndBoundCoinSelection` — branch and
bound toward an exact match under the iteration budget, falling back to a
random draw when no exact match exists. -/
def branch_and_bound (budget : Nat) (candidates : List UTXO) (target : Nat)
    (rng : List Nat) : List UTXO :=
  match bnbExactMatch budget candidates target with
  | some sel => sel
  | none => single_random_draw rng candidates target

/-- Modelled from the spec: the full `Wallet::create_pegout_tx` construction
pipeline of spec section 4.4 — filter candidates through the consensus-height
decorator, select coins by branch and bound with the 10,000,000 iteration
budget, order inputs per BIP-69, emit the single recipient output, with the
fee rate sourced from `consensus_feerate`. The `rng` input feeds the fallback
draw of the selector. -/
def create_pegout_unsigned (s : WalletState) (recipient_script : Nat)
    (amt : Nat) (rng : List Nat) : PegoutTx :=
  { input_txids :=
      List.insertionSort (fun a b => a ≤ b)
        ((branch_and_bound 10000000
            (s.utxos.filter (fun u =>
              match (Wallet.height_map s).lookup u.txid with
              | some h => decide (h ≤ s.consensus_height)
              | none => false))
            amt rng).map (fun u => u.txid)),
    output_script := recipient_script,
    output_value := amt,
    fee_rate := s.consensus_feerate }

/-- `GatewayExtPayStates`: the public lifecycle of a gateway pay operation. -/
inductive GatewayExtPayStates where
  | Created : GatewayExtPayStates
  | Preimage : Nat → GatewayExtPayStates
  | Success : Nat → GatewayExtPayStates
  | Canceled : GatewayExtPayStates
  | Fail : GatewayExtPayStates
  | OfferDoesNotExist : Nat → GatewayExtPayStates
deriving DecidableEq

/-- `GatewayError` as returned by `await_paid_invoice`. -/
inductive GatewayError where
  | Canceled : Nat → GatewayError
  | OfferDoesNotExist : Nat → GatewayError
  | Failed : GatewayError
deriving DecidableEq

/-- The asynchronous environment one run of the subscription stream observes:
the outcome of `await_paid_invoice` (an outpoint and a preimage on success),
whether `await_primary_module_output` succeeds, and whether the cancel
transaction is accepted. -/
structure PayEnv where
  paid : Except GatewayError (Nat × Nat)
  primary_output_ok : Bool
  cancel_tx_accepted : Bool

/-- The event sequence produced by the stream inside
`gateway_subscribe_ln_pay`, as a function of the observed environment:
yield `Created`, then follow the match on `await_paid_invoice`. -/
def payStream (env : PayEnv) : List GatewayExtPayStates :=
  GatewayExtPayStates.Created ::
    match env.paid with
    | Except.ok (_outpoint, preimage) =>
        GatewayExtPayStates.Preimage preimage ::
          (if env.primary_output_ok then [GatewayExtPayStates.Success preimage]
           else [GatewayExtPayStates.Fail])
    | Except.error (GatewayError.Canceled _) =>
        if env.cancel_tx_accepted then [GatewayExtPayStates.Canceled]
        else [GatewayExtPayStates.Fail]
    | Except.error (GatewayError.OfferDoesNotExist cid) =>
        [GatewayExtPayStates.OfferDoesNotExist cid]
    | Except.error GatewayError.Failed => [GatewayExtPayStates.Fail]

/-- Whether a public pay state is terminal (`Success`, `Canceled`,
`OfferDoesNotExist` or `Fail`). -/
def isTerminalPayState : GatewayExtPayStates → Bool
  | GatewayExtPayStates.Success _ => true
  | GatewayExtPayStates.Canceled => true
  | GatewayExtPayStates.Fail => true
  | GatewayExtPayStates.OfferDoesNotExist _ => true
  | _ => false

/-- `ContractId`: itself a sha256 digest newtype; `hash` is that digest. -/
structure ContractId where
  hash : Nat
deriving DecidableEq

/-- `OperationId`: wraps the 32 digest bytes it is constructed from. -/
structure OperationId where
  bytes : Nat
deriving DecidableEq

/-- `GatewayMeta`: the tag of the operation-log entry. -/
inductive GatewayMeta where
  | Pay : GatewayMeta
deriving DecidableEq

/-- The federation client database partitions `gateway_pay_bolt11_invoice`
writes to: the persisted pay state machines (each in initial state
`PayInvoice{contract_id}`, keyed by operation id) and the operation log. -/
structure GatewayDb where
  state_machines : List (OperationId × ContractId)
  operation_log : List (OperationId × GatewayMeta)
deriving DecidableEq

/-- `gateway_pay_bolt11_invoice`: inside one database transaction, compute
`operation_id = OperationId(contract_id.into_inner())` — the operation id
carries the contract id digest — persist the pay state machine in state
`PayInvoice`, append a `Pay` operation-log entry, and return the operation
id. The autocommit retry (up to 100 attempts) only reruns this same closure,
so it does not affect the value returned. -/
def gateway_pay_bolt11_invoice (db : GatewayDb) (contract_id : ContractId) :
    OperationId × GatewayDb :=
  (⟨contract_id.hash⟩,
   { state_machines := db.state_machines ++ [(⟨contract_id.hash⟩, contract_id)],
     operation_log := db.operation_log ++ [(⟨contract_id.hash⟩, GatewayMeta.Pay)] })

/-! ## Helper lemmas -/

/-- A fee-aggregation round that does not panic never changes
`consensus_height`. -/
theorem process_fee_preserves_height (s s' : WalletState) (props : List F32)
    (h : Wallet.process_fee_proposals s props = some s') :
    s'.consensus_height = s.consensus_height := by
  unfold Wallet.process_fee_proposals at h
  split at h
  · exact Option.noConfusion h
  · split at h
    · cases h
      rfl
    · cases h
      rfl

/-- Folding the fee round into the height-round result leaves
`consensus_height` untouched whatever the fee round does. -/
theorem fee_match_height (s1 : WalletState) (fees : List F32) :
    (match Wallet.process_fee_proposals s1 fees with
      | none => s1
      | some s2 => s2).consensus_height = s1.consensus_height := by
  cases hfee : Wallet.process_fee_proposals s1 fees with
  | none => rfl
  | some s2 => exact process_fee_preserves_height s1 s2 fees hfee

/-- Closed form of the consensus height after one non-empty aggregation
round: the element at index `len / 2` of the sorted height proposals is
committed exactly when it does not rewind the current value. -/
theorem process_consensus_height_formula (s : WalletState)
    (props : List WalletConsensus) (hp : props ≠ []) :
    (Wallet.process_consensus_proposals s props).consensus_height =
      if s.consensus_height ≤
          (List.insertionSort (fun a b => a ≤ b)
            (props.map WalletConsensus.block_height)).getD (props.length / 2) 0
      then (List.insertionSort (fun a b => a ≤ b)
            (props.map WalletConsensus.block_height)).getD (props.length / 2) 0
      else s.consensus_height := by
  have hh : props.map WalletConsensus.block_height ≠ [] := by
    simpa using hp
  unfold Wallet.process_consensus_proposals Wallet.process_block_height_proposals
  rw [if_neg hp, if_neg hh, List.length_map]
  by_cases hc : s.consensus_height ≤
      (List.insertionSort (fun a b => a ≤ b)
        (props.map WalletConsensus.block_height)).getD (props.length / 2) 0
  · rw [if_pos hc, if_pos hc]
    exact fee_match_height
      { s with consensus_height :=
          (List.insertionSort (fun a b => a ≤ b)
            (props.map WalletConsensus.block_height)).getD (props.length / 2) 0 }
      (props.map WalletConsensus.fee_rate)
  · rw [if_neg hc, if_neg hc]
    exact fee_match_height s (props.map WalletConsensus.fee_rate)

/-- One aggregation round never decreases `consensus_height`. -/
theorem consensus_height_le_step (s : WalletState)
    (props : List WalletConsensus) :
    s.consensus_height ≤
      (Wallet.process_consensus_proposals s props).consensus_height := by
  by_cases hp : props = []
  · subst hp
    simp [Wallet.process_consensus_proposals]
  · rw [process_consensus_height_formula s props hp]
    split
    · assumption
    · exact le_refl _

/-- Any sequence of aggregation rounds never decreases `consensus_height`. -/
theorem consensus_height_le_foldl (s : WalletState)
    (batches : List (List WalletConsensus)) :
    s.consensus_height ≤
      (batches.foldl Wallet.process_consensus_proposals s).consensus_height := by
  induction batches generalizing s with
  | nil => exact le_refl _
  | cons b bs ih =>
      rw [List.foldl_cons]
      exact le_trans (consensus_height_le_step s b) (ih _)

/-- The element `getD` reads from a sorted copy at a valid index is an
element of the original list. -/
theorem getD_insertionSort_mem {α : Type} (r : α → α → Prop) [DecidableRel r]
    (l : List α) (n : Nat) (hn : n < l.length) (d : α) :
    (List.insertionSort r l).getD n d ∈ l := by
  have hlen : n < (List.insertionSort r l).length := by
    rw [List.length_insertionSort]
    exact hn
  rw [List.getD_eq_getElem _ _ hlen]
  exact (List.perm_insertionSort r l).subset (List.getElem_mem hlen)

/-- A normal `F32` value is finite. -/
theorem F32.isNormal_imp_isFinite (x : F32) (h : F32.isNormal x = true) :
    F32.isFinite x = true := by
  cases x <;> simp [F32.isNormal, F32.isFinite] at h ⊢

/-- Summing a projection over a filtered list equals summing the projection
gated to zero over the whole list. -/
theorem sum_filter_map_eq (p : UTXO → Bool) (l : List UTXO) :
    (((l.filter p).map (fun u => u.value)).sum : Nat)
      = (l.map (fun u => if p u then u.value else 0)).sum := by
  induction l with
  | nil => rfl
  | cons a l ih => by_cases h : p a <;> simp [List.filter_cons, h, ih]

/-! ## Claim theorems -/

/-- C2: across every sequence of aggregation rounds `consensus_height` is
monotone non-decreasing; in every round with a non-empty batch the element at
index `len / 2` of the ascending-sorted height proposals becomes the new
`consensus_height` exactly when it is at least the current value, and the
value is left unchanged otherwise; with `consensus_height = 200` and
proposals `[150, 160, 155]` the value stays 200. -/
theorem C2_consensus_height_monotone :
    (∀ (s : WalletState) (batches : List (List WalletConsensus)),
        s.consensus_height ≤
          (batches.foldl Wallet.process_consensus_proposals s).consensus_height)
    ∧ (∀ (s : WalletState) (props : List WalletConsensus), props ≠ [] →
        ∃ l : List Nat,
          l.Perm (props.map WalletConsensus.block_height)
          ∧ List.Sorted (fun a b => a ≤ b) l
          ∧ (Wallet.process_consensus_proposals s props).consensus_height =
              (if s.consensus_height ≤ l.getD (props.length / 2) 0
               then l.getD (props.length / 2) 0 else s.consensus_height))
    ∧ (Wallet.process_consensus_proposals
        { consensus_height := 200, finalty_delay := 0, last_proposal := 0,
          consensus_feerate := F32.nan, utxos := [], txs := [] }
        [⟨150, F32.norm 1⟩, ⟨160, F32.norm 1⟩, ⟨155, F32.norm 1⟩]).consensus_height
      = 200 :=
  ⟨consensus_height_le_foldl,
   fun s props hp =>
     ⟨List.insertionSort (fun a b => a ≤ b) (props.map WalletConsensus.block_height),
      List.perm_insertionSort _ _,
      List.sorted_insertionSort _ _,
      process_consensus_height_formula s props hp⟩,
   by decide⟩

/-- Witness for C2: the second conjunct applied to a singleton round with
proposal height 101 over a fresh state. -/
theorem C2_consensus_height_monotone_witness :
    ([(⟨101, F32.norm 1⟩ : WalletConsensus)] ≠ [])
    ∧ ∃ l : List Nat,
        l.Perm ([(⟨101, F32.norm 1⟩ : WalletConsensus)].map WalletConsensus.block_height)
        ∧ List.Sorted (fun a b => a ≤ b) l
        ∧ (Wallet.process_consensus_proposals
            { consensus_height := 0, finalty_delay := 0, last_proposal := 0,
              consensus_feerate := F32.nan, utxos := [], txs := [] }
            [⟨101, F32.norm 1⟩]).consensus_height =
            (if (0 : Nat) ≤ l.getD ([(⟨101, F32.norm 1⟩ : WalletConsensus)].length / 2) 0
             then l.getD ([(⟨101, F32.norm 1⟩ : WalletConsensus)].length / 2) 0 else 0) :=
  ⟨by decide,
   C2_consensus_height_monotone.2.1
     { consensus_height := 0, finalty_delay := 0, last_proposal := 0,
       consensus_feerate := F32.nan, utxos := [], txs := [] }
     [⟨101, F32.norm 1⟩] (by decide)⟩

/-- C3 counterexample: the claim says entries that are not positive are
discarded, so on the batch `[-2.0]` nothing would survive and
`consensus_feerate` (here `7.0`) would be left unchanged; the code filters
only with `is_normal`, which accepts the negative normal value `-2.0`, and
commits it. -/
theorem C3_counterexample :
    Wallet.process_fee_proposals
        { consensus_height := 0, finalty_delay := 0, last_proposal := 0,
          consensus_feerate := F32.norm 7, utxos := [], txs := [] }
        [F32.norm (-2)]
      = some { consensus_height := 0, finalty_delay := 0, last_proposal := 0,
               consensus_feerate := F32.norm (-2), utxos := [], txs := [] }
    ∧ F32.isPositive (F32.norm (-2)) = false
    ∧ F32.norm (-2) ≠ F32.norm 7 := by
  refine ⟨by decide, by decide, by decide⟩

/-- C3 (amended): for every non-empty batch the filter discards exactly the
entries that are not normal floating values (zero, subnormal, infinite, NaN;
the sign is not checked, so negative normal values survive); if nothing
remains `consensus_feerate` is unchanged; otherwise the survivors are sorted
ascending and the element at index `len / 2` is committed; the batch
`[1.0, NaN, 2.0, +inf, 3.0, 0.0]` yields `consensus_feerate = 2.0`. -/
theorem C3_fee_filter_median :
    (∀ (s : WalletState) (props : List F32), props ≠ [] →
      (props.filter F32.isNormal = [] →
          Wallet.process_fee_proposals s props = some s)
      ∧ (props.filter F32.isNormal ≠ [] →
          ∃ l : List F32,
            l.Perm (props.filter F32.isNormal)
            ∧ List.Sorted F32.leVal l
            ∧ (∀ x : F32, x ∈ l ↔ (x ∈ props ∧ F32.isNormal x = true))
            ∧ Wallet.process_fee_proposals s props =
                some { s with
                  consensus_feerate :=
                    l.getD ((props.filter F32.isNormal).length / 2) F32.nan }))
    ∧ (Wallet.process_fee_proposals
        { consensus_height := 0, finalty_delay := 0, last_proposal := 0,
          consensus_feerate := F32.nan, utxos := [], txs := [] }
        [F32.norm 1, F32.nan, F32.norm 2, F32.inf false, F32.norm 3, F32.zero false]
      = some { consensus_height := 0, finalty_delay := 0, last_proposal := 0,
               consensus_feerate := F32.norm 2, utxos := [], txs := [] }) := by
  constructor
  · intro s props hp
    constructor
    · intro hempty
      unfold Wallet.process_fee_proposals
      rw [if_neg hp, if_pos hempty]
    · intro hs
      refine ⟨List.insertionSort F32.leVal (props.filter F32.isNormal),
        List.perm_insertionSort _ _, List.sorted_insertionSort _ _,
        fun x => (List.perm_insertionSort F32.leVal _).mem_iff.trans List.mem_filter,
        ?_⟩
      unfold Wallet.process_fee_proposals
      rw [if_neg hp, if_neg hs]
  · decide

/-- Witness for C3: the first conjunct applied to the batch `[5.0, 4.0]`. -/
theorem C3_fee_filter_median_witness :
    ([F32.norm 5, F32.norm 4] ≠ [])
    ∧ ([F32.norm 5, F32.norm 4].filter F32.isNormal ≠ [])
    ∧ ∃ l : List F32,
        l.Perm ([F32.norm 5, F32.norm 4].filter F32.isNormal)
        ∧ List.Sorted F32.leVal l
        ∧ (∀ x : F32, x ∈ l ↔ (x ∈ [F32.norm 5, F32.norm 4] ∧ F32.isNormal x = true))
        ∧ Wallet.process_fee_proposals
            { consensus_height := 0, finalty_delay := 0, last_proposal := 0,
              consensus_feerate := F32.nan, utxos := [], txs := [] }
            [F32.norm 5, F32.norm 4] =
            some { consensus_height := 0, finalty_delay := 0, last_proposal := 0,
                   consensus_feerate :=
                     l.getD (([F32.norm 5, F32.norm 4].filter F32.isNormal).length / 2)
                       F32.nan,
                   utxos := [], txs := [] } :=
  ⟨by decide, by decide,
   (C3_fee_filter_median.1
      { consensus_height := 0, finalty_delay := 0, last_proposal := 0,
        consensus_feerate := F32.nan, utxos := [], txs := [] }
      [F32.norm 5, F32.norm 4] (by decide)).2 (by decide)⟩

/-- C4 counterexample: a committing round need not leave a positive
`consensus_feerate`: the batch `[-3.0, -1.0]` survives the `is_normal`
filter entirely and commits `-1.0`, which is not positive. -/
theorem C4_counterexample :
    Wallet.process_fee_proposals
        { consensus_height := 0, finalty_delay := 0, last_proposal := 0,
          consensus_feerate := F32.norm 5, utxos := [], txs := [] }
        [F32.norm (-3), F32.norm (-1)]
      = some { consensus_height := 0, finalty_delay := 0, last_proposal := 0,
               consensus_feerate := F32.norm (-1), utxos := [], txs := [] }
    ∧ F32.isPositive (F32.norm (-1)) = false := by
  refine ⟨by decide, by decide⟩

/-- C4 (amended): after every round in which at least one proposal survives
the sanity filter, the committed `consensus_feerate` is finite and normal;
positivity is not guaranteed (the filter ignores the sign). -/
theorem C4_fee_sanity :
    ∀ (s : WalletState) (props : List F32), props ≠ [] →
      props.filter F32.isNormal ≠ [] →
      ∃ s', Wallet.process_fee_proposals s props = some s'
        ∧ F32.isFinite s'.consensus_feerate = true
        ∧ F32.isNormal s'.consensus_feerate = true := by
  intro s props hp hs
  unfold Wallet.process_fee_proposals
  rw [if_neg hp, if_neg hs]
  have hidx : (props.filter F32.isNormal).length / 2
      < (props.filter F32.isNormal).length :=
    Nat.div_lt_self (List.length_pos.mpr hs) (by decide)
  have hmem : (List.insertionSort F32.leVal (props.filter F32.isNormal)).getD
      ((props.filter F32.isNormal).length / 2) F32.nan ∈ props.filter F32.isNormal :=
    getD_insertionSort_mem F32.leVal (props.filter F32.isNormal) _ hidx F32.nan
  have hnorm := (List.mem_filter.mp hmem).2
  exact ⟨_, rfl, F32.isNormal_imp_isFinite _ hnorm, hnorm⟩

/-- Witness for C4: a committing singleton round with proposal `4.0`. -/
theorem C4_fee_sanity_witness :
    ([F32.norm 4] ≠ [])
    ∧ ([F32.norm 4].filter F32.isNormal ≠ [])
    ∧ ∃ s', Wallet.process_fee_proposals
          { consensus_height := 0, finalty_delay := 0, last_proposal := 0,
            consensus_feerate := F32.nan, utxos := [], txs := [] }
          [F32.norm 4] = some s'
        ∧ F32.isFinite s'.consensus_feerate = true
        ∧ F32.isNormal s'.consensus_feerate = true :=
  ⟨by decide, by decide,
   C4_fee_sanity
     { consensus_height := 0, finalty_delay := 0, last_proposal := 0,
       consensus_feerate := F32.nan, utxos := [], txs := [] }
     [F32.norm 4] (by decide) (by decide)⟩

/-- C1: the unsigned peg-out transaction is not a function of
`(descriptor, UTXO set, height map, consensus_height, consensus_feerate,
recipient, amount)` alone — two runs of the construction from the very same
wallet state (two confirmed UTXOs of 5 and 6 sats), the same recipient and
the same amount (4 sats, for which branch and bound finds no exact match)
produce different transactions for different draws of the fallback RNG,
which the listed inputs do not determine. -/
theorem C1_pegout_rng_dependent :
    create_pegout_unsigned
        { consensus_height := 100, finalty_delay := 0, last_proposal := 0,
          consensus_feerate := F32.norm 1,
          utxos := [⟨1, 5⟩, ⟨2, 6⟩],
          txs := [⟨1, some 10⟩, ⟨2, some 10⟩] } 99 4 [0, 1]
      ≠ create_pegout_unsigned
        { consensus_height := 100, finalty_delay := 0, last_proposal := 0,
          consensus_feerate := F32.norm 1,
          utxos := [⟨1, 5⟩, ⟨2, 6⟩],
          txs := [⟨1, some 10⟩, ⟨2, some 10⟩] } 99 4 [1, 0] := by
  decide

/-- C5: `consensus_proposal` does return
`max (network_height - finality_delay) last_proposal_height` as the proposed
block height, but it does not update `last_proposal_height`: the method takes
`&self` and the returned state is the input state unchanged. In particular a
fresh wallet (`last_proposal = 0`) proposing height 90 still has
`last_proposal = 0` afterwards, not 90 as the claim requires. -/
theorem C5_consensus_proposal_no_update :
    (∀ (s : WalletState) (network_height : Nat) (fee : F32),
      (Wallet.consensus_proposal s network_height fee).1.block_height =
          max (network_height - s.finalty_delay) s.last_proposal
        ∧ (Wallet.consensus_proposal s network_height fee).2 = s)
    ∧ ((Wallet.consensus_proposal
          { consensus_height := 0, finalty_delay := 10, last_proposal := 0,
            consensus_feerate := F32.nan, utxos := [], txs := [] }
          100 (F32.norm 1)).1.block_height = 90
      ∧ (Wallet.consensus_proposal
          { consensus_height := 0, finalty_delay := 10, last_proposal := 0,
            consensus_feerate := F32.nan, utxos := [], txs := [] }
          100 (F32.norm 1)).2.last_proposal = 0
      ∧ (0 : Nat) ≠ 90) := by
  constructor
  · intro s nh fee
    refine ⟨?_, rfl⟩
    show (if s.last_proposal ≤ nh - s.finalty_delay then nh - s.finalty_delay
          else s.last_proposal) = max (nh - s.finalty_delay) s.last_proposal
    split <;> omega
  · exact ⟨by decide, by decide, by decide⟩

/-- C6: the balance is the sum of the values of exactly those unspent outputs
whose funding txid has a height at most `consensus_height` in the height map;
outputs with unknown height contribute zero; three 10,000-sat UTXOs at
heights 90, 100, 110 with `consensus_height = 100` give 20,000 sats. -/
theorem C6_balance_spec :
    (∀ s : WalletState,
      Wallet.balance s =
        (s.utxos.map (fun u =>
            match (Wallet.height_map s).lookup u.txid with
            | some h => if h ≤ s.consensus_height then u.value else 0
            | none => 0)).sum)
    ∧ Wallet.balance
        { consensus_height := 100, finalty_delay := 0, last_proposal := 0,
          consensus_feerate := F32.nan,
          utxos := [⟨1, 10000⟩, ⟨2, 10000⟩, ⟨3, 10000⟩],
          txs := [⟨1, some 90⟩, ⟨2, some 100⟩, ⟨3, some 110⟩] } = 20000 := by
  constructor
  · intro s
    unfold Wallet.balance
    rw [sum_filter_map_eq]
    refine congrArg List.sum (List.map_congr_left ?_)
    intro u _
    cases hlk : (Wallet.height_map s).lookup u.txid <;> simp [hlk]
  · decide

/-- C7: with no required UTXOs, the decorator hands the inner selector
exactly the optional candidates whose funding txid is present in the height
map at a height at most `consensus_height`; candidates with unknown height
or a larger height never reach the inner selector. -/
theorem C7_coin_selector_admissibility :
    ∀ (hm : List (Nat × Nat)) (ch : Nat) (optional : List (UTXO × Nat)),
      (∀ (R : Type) (inner : List (UTXO × Nat) → List (UTXO × Nat) → R),
        ConsensusHeightCoinSelector.coin_select
            { height_map := hm, consensus_height := ch, inner_selector := inner }
            [] optional
          = some (inner []
              (optional.filter (fun p =>
                match hm.lookup p.1.txid with
                | some h => decide (h ≤ ch)
                | none => false))))
      ∧ (∀ p : UTXO × Nat,
          (p ∈ optional.filter (fun p =>
              match hm.lookup p.1.txid with
              | some h => decide (h ≤ ch)
              | none => false))
          ↔ (p ∈ optional ∧ ∃ h, hm.lookup p.1.txid = some h ∧ h ≤ ch)) := by
  intro hm ch optional
  constructor
  · intro R inner
    rfl
  · intro p
    rw [List.mem_filter]
    refine and_congr_right fun _ => ?_
    cases hlk : hm.lookup p.1.txid <;> simp [hlk]

/-- C8: a peg-out construction returns a transaction only when the builder
metadata records `sent` exactly equal to the requested satoshi amount, and
that transaction is the signed builder output; on a mismatch the construction
panics (aborts) instead of returning a transaction. -/
theorem C8_exact_send :
    ∀ {Tx : Type} (sign : Tx → Tx) (finish : Option (Tx × TransactionDetails))
      (amt : Nat),
      (∀ tx : Tx, Wallet.create_pegout_tx sign finish amt = PegoutResult.ok tx →
        ∃ tx0 meta, finish = some (tx0, meta) ∧ meta.sent = amt ∧ tx = sign tx0)
      ∧ (∀ (tx0 : Tx) (meta : TransactionDetails),
          finish = some (tx0, meta) → meta.sent ≠ amt →
          Wallet.create_pegout_tx sign finish amt = PegoutResult.panicked) := by
  intro Tx sign finish amt
  constructor
  · intro tx h
    cases finish with
    | none => exact PegoutResult.noConfusion h
    | some p =>
        obtain ⟨tx0, meta⟩ := p
        have h' : (if meta.sent = amt then PegoutResult.ok (sign tx0)
            else PegoutResult.panicked) = PegoutResult.ok tx := h
        by_cases hs : meta.sent = amt
        · rw [if_pos hs] at h'
          cases h'
          exact ⟨tx0, meta, rfl, hs, rfl⟩
        · rw [if_neg hs] at h'
          exact PegoutResult.noConfusion h'
  · rintro tx0 meta rfl hne
    show (if meta.sent = amt then PegoutResult.ok (sign tx0)
          else PegoutResult.panicked) = PegoutResult.panicked
    rw [if_neg hne]

/-- Witness for C8: a builder outcome with `sent = 42` and a request of 42
returns the (identity-signed) transaction, and the same outcome with a
mismatching request of 41 panics. -/
theorem C8_exact_send_witness :
    (∃ tx0 meta, (some ((7 : Nat), TransactionDetails.mk 42)) = some (tx0, meta)
      ∧ TransactionDetails.sent meta = 42 ∧ (7 : Nat) = id tx0)
    ∧ Wallet.create_pegout_tx (id : Nat → Nat) (some (7, TransactionDetails.mk 42)) 41
        = PegoutResult.panicked :=
  ⟨(C8_exact_send (id : Nat → Nat) (some (7, TransactionDetails.mk 42)) 42).1 7 rfl,
   (C8_exact_send (id : Nat → Nat) (some (7, TransactionDetails.mk 42)) 41).2
     7 (TransactionDetails.mk 42) rfl (by decide)⟩

/-- C9: for every environment the subscription stream yields `Created` first
and ends with exactly one terminal event (`Success`, `Canceled`,
`OfferDoesNotExist` or `Fail`), no terminal event occurring earlier; on the
happy path (payment returns the preimage, escrow-claim output accepted) it
emits exactly `Created, Preimage, Success`. -/
theorem C9_subscription_stream :
    (∀ env : PayEnv,
      (payStream env).head? = some GatewayExtPayStates.Created
      ∧ ∃ pre t, payStream env = pre ++ [t]
          ∧ isTerminalPayState t = true
          ∧ pre.filter isTerminalPayState = [])
    ∧ (∀ outpoint preimage : Nat,
        payStream { paid := Except.ok (outpoint, preimage),
                    primary_output_ok := true, cancel_tx_accepted := true } =
          [GatewayExtPayStates.Created, GatewayExtPayStates.Preimage preimage,
           GatewayExtPayStates.Success preimage]) := by
  constructor
  · rintro ⟨paid, po, ca⟩
    cases paid with
    | ok pr =>
        obtain ⟨o, p⟩ := pr
        cases po with
        | true =>
            exact ⟨rfl, [GatewayExtPayStates.Created, GatewayExtPayStates.Preimage p],
              GatewayExtPayStates.Success p, rfl, rfl, rfl⟩
        | false =>
            exact ⟨rfl, [GatewayExtPayStates.Created, GatewayExtPayStates.Preimage p],
              GatewayExtPayStates.Fail, rfl, rfl, rfl⟩
    | error e =>
        cases e with
        | Canceled txid =>
            cases ca with
            | true =>
                exact ⟨rfl, [GatewayExtPayStates.Created],
                  GatewayExtPayStates.Canceled, rfl, rfl, rfl⟩
            | false =>
                exact ⟨rfl, [GatewayExtPayStates.Created],
                  GatewayExtPayStates.Fail, rfl, rfl, rfl⟩
        | OfferDoesNotExist cid =>
            exact ⟨rfl, [GatewayExtPayStates.Created],
              GatewayExtPayStates.OfferDoesNotExist cid, rfl, rfl, rfl⟩
        | Failed =>
            exact ⟨rfl, [GatewayExtPayStates.Created],
              GatewayExtPayStates.Fail, rfl, rfl, rfl⟩
  · intro o p
    rfl

/-- C10: the operation id returned by `gateway_pay_bolt11_invoice` is the
contract id digest wrapped as an `OperationId`
(`OperationId(contract_id.into_inner())`), hence a pure function of the
contract id: the database contents, and therefore retries after a restart,
cannot change it. The write set is the appended state machine and operation
log entry. -/
theorem C10_operation_id_deterministic :
    (∀ (db : GatewayDb) (c : ContractId),
        (gateway_pay_bolt11_invoice db c).1 = ⟨c.hash⟩)
    ∧ (∀ (db1 db2 : GatewayDb) (c : ContractId),
        (gateway_pay_bolt11_invoice db1 c).1 = (gateway_pay_bolt11_invoice db2 c).1)
    ∧ (∀ (db : GatewayDb) (c : ContractId),
        (gateway_pay_bolt11_invoice db c).2.state_machines =
          db.state_machines ++ [((⟨c.hash⟩ : OperationId), c)]
        ∧ (gateway_pay_bolt11_invoice db c).2.operation_log =
          db.operation_log ++ [((⟨c.hash⟩ : OperationId), GatewayMeta.Pay)]) :=
  ⟨fun _ _ => rfl, fun _ _ _ => rfl, fun _ _ => ⟨rfl, rfl⟩⟩

end Fedimint
